import Mathlib

/-!
# Verification of `asynco/alloy_admin.py` (`AlloyDBAdmin`)

A shallow embedding of the sequential async wrapper `AlloyDBAdmin` over a
blocking DB client, together with proofs of the specified properties:
mutual exclusion, FIFO ordering, backpressure (`QueueFullError`),
graceful drain on shutdown, error isolation, idempotent startup, and the
behaviour of the `None` poison-pill sentinel.

The embedding follows the Python source:
- a queue item is the pair `(sql, future)` put by `execute_sql_async`,
  with the poison pill being `(None, None)`;
- the worker loop (`AlloyDBAdmin._worker`) dequeues items strictly in
  order, breaks on `sql is None`, and otherwise resolves the item's
  future with the client's result or its raised exception;
- `execute_sql_async` wraps `queue.put` in `asyncio.wait_for` with
  `enqueue_timeout`, translating a timeout into `QueueFullError`;
- `shutdown` puts the sentinel with a plain (untimed) `queue.put`,
  awaits the worker task, and clears the `_started` flag;
- `_ensure_started` performs double-checked lazy startup under
  `_init_lock`.
-/

/-- Python exceptions relevant to the wrapper.  `dbError` stands for an
arbitrary exception raised by the blocking client's `execute_sql`;
`queueFull` is `QueueFullError` (carrying its message);
`executionError` is the wrapper type named by the specification
(no such class exists in the source — it is included so that the shape of
the exception delivered to a caller can be compared with the spec's words). -/
inductive PyExc : Type
  | dbError (msg : String)
  | queueFull (msg : String)
  | executionError (inner : PyExc)
  deriving DecidableEq, Repr

/-- Is the exception of the `ExecutionError`-wrapper shape the spec describes? -/
def PyExc.isExecutionError : PyExc → Bool
  | .executionError _ => true
  | _ => false

/-- One entry of `AlloyDBAdmin._queue`: the tuple `(sql, future)` put by
`execute_sql_async` (line 69).  `sql = none` models Python's `None`;
`fut` is the identity of the caller's future (`none` for the poison pill
`(None, None)` put by `shutdown`, line 100). -/
structure QItem where
  sql : Option String
  fut : Option Nat
  deriving DecidableEq, Repr

/-- The poison pill `(None, None)` enqueued by `AlloyDBAdmin.shutdown`. -/
def sentinel : QItem := ⟨none, none⟩

/-- Shallow embedding of `AlloyDBAdmin._worker` (lines 104–125) applied to
the sequence of items it dequeues, in queue (FIFO) order.

Returns the resolution trace — for each processed item, the pair of its
future and the outcome `self._client.execute_sql(sql)` produced for it
(`.ok` via `future.set_result`, `.error` via `future.set_exception`) —
together with the queue items left behind when the loop `break`s on an
item whose `sql` is `None`.  If no such item occurs the worker stays
suspended in `queue.get` and the leftover list is empty. -/
def workerRun (client : String → Except PyExc V) : List QItem →
    List (Option Nat × Except PyExc V) × List QItem
  | [] => ([], [])
  | item :: rest =>
    match item.sql with
    | none => ([], rest)
    | some s =>
      let out := workerRun client rest
      ((item.fut, client s) :: out.1, out.2)

/-- A queue item that is a real request, not a poison pill
(`sql is None` is the worker's only exit test, line 110). -/
def QItem.isRequest (it : QItem) : Bool := it.sql.isSome

/-- The sql payload of a request item (total; irrelevant on sentinels). -/
def QItem.payload (it : QItem) : String := it.sql.getD ""

/-- The `QueueFullError` message built by `execute_sql_async`
(lines 74–78 of the source). -/
def queueFullMsg (cap : Nat) (timeout : ℚ) : String :=
  "DB queue is full (" ++ toString cap ++ " slots). Could not enqueue after "
    ++ toString timeout ++ "s. Consider raising queue_size or reducing query volume."

/-- Shallow embedding of the enqueue phase of
`AlloyDBAdmin.execute_sql_async` (lines 68–79):
`await asyncio.wait_for(self._queue.put((sql, future)), timeout=self._enqueue_timeout)`,
with `asyncio.TimeoutError` re-raised as `QueueFullError`.

`cap` is the queue capacity (`queue_size`), `q` the current queue
contents, and `slotWait` the time until the worker frees a slot when the
queue is full (abstracting worker progress).  Returns the raised
exception if any, the resulting queue contents, and the time the caller
spent suspended in the `put`.  When the queue is full and no slot opens
within `timeout`, `wait_for` cancels the pending `put` — which removes
its waiter without inserting the item (`asyncio.Queue.put` adds the item
only after its waiter succeeds) — so on failure the queue is unchanged. -/
def executeSqlEnqueue (cap : Nat) (timeout : ℚ) (q : List QItem) (slotWait : ℚ)
    (item : QItem) : Option PyExc × List QItem × ℚ :=
  if q.length < cap then (none, q ++ [item], 0)
  else if slotWait ≤ timeout then (none, q.drop 1 ++ [item], slotWait)
  else (some (.queueFull (queueFullMsg cap timeout)), q, timeout)

/-- Shallow embedding of the sentinel enqueue in `AlloyDBAdmin.shutdown`
(line 100): `await self._queue.put((None, None))` — a plain `put`, not
wrapped in `asyncio.wait_for`.  The caller suspends for as long as it
takes a slot to open (`slotWait`, unbounded) and the put never raises. -/
def shutdownPutSentinel (cap : Nat) (q : List QItem) (slotWait : ℚ) :
    List QItem × ℚ :=
  if q.length < cap then (q ++ [sentinel], 0)
  else (q.drop 1 ++ [sentinel], slotWait)

/-- Execution schedule of `AlloyDBAdmin._worker`: the worker `await`s
`asyncio.to_thread(self._client.execute_sql, sql)` to completion before
dequeuing the next item, so the blocking client runs the requests back to
back.  Given the duration `dur s` of each call and the start time `t`,
this returns, per processed item, its future together with the start and
end instant of its `execute_sql` call.  Processing stops at the first
poison pill, as in `workerRun`. -/
def workerSchedule (dur : String → ℕ) : ℕ → List QItem → List (Option Nat × ℕ × ℕ)
  | _, [] => []
  | t, item :: rest =>
    match item.sql with
    | none => []
    | some s => (item.fut, t, t + dur s) :: workerSchedule dur (t + dur s) rest

/-- The blocking client is executing the scheduled call `e` at instant
`τ`: half-open interval `[start, end)`. -/
def execAt (e : Option Nat × ℕ × ℕ) (τ : ℕ) : Prop := e.2.1 ≤ τ ∧ τ < e.2.2

instance (e : Option Nat × ℕ × ℕ) (τ : ℕ) : Decidable (execAt e τ) :=
  inferInstanceAs (Decidable (_ ∧ _))

/-- Observable state of one `AlloyDBAdmin` instance, as manipulated by the
source's methods.  `started` is `self._started`; `workerAlive` records
whether the current worker task's loop is still running (the task exits
only by `break`ing on a poison pill); `workersCreated` counts the calls
to `asyncio.create_task(self._worker())`; `queue` holds the items not yet
dequeued; `resolved` accumulates the `(future, outcome)` resolutions the
worker has performed; `nextFut` names the next fresh future created by
`self._loop.create_future()`. -/
structure AdminState (V : Type) where
  started : Bool
  workerAlive : Bool
  workersCreated : Nat
  queue : List QItem
  resolved : List (Option Nat × Except PyExc V)
  nextFut : Nat
  deriving Repr

/-- A freshly constructed `AlloyDBAdmin` (its `__init__`): not started,
no worker, empty queue. -/
def initialAdmin : AdminState V := ⟨false, false, 0, [], [], 0⟩

/-- Shallow embedding of `AlloyDBAdmin._ensure_started` (lines 87–95):
on the fast path (`self._started`) do nothing; otherwise (the body runs
atomically under `_init_lock`, see `StartStep` below for the interleaved
view) create the worker task and set the flag. -/
def ensureStarted (a : AdminState V) : AdminState V :=
  if a.started then a
  else { a with started := true, workerAlive := true,
                workersCreated := a.workersCreated + 1 }

/-- Let the current worker task run until the queue is exhausted or the
loop `break`s on a poison pill: the event-loop step between the points an
`AlloyDBAdmin` caller observes.  A dead worker (already exited) consumes
nothing — items stay in `self._queue`. -/
def drainStep (client : String → Except PyExc V) (a : AdminState V) : AdminState V :=
  if a.workerAlive then
    let out := workerRun client a.queue
    { a with queue := out.2, resolved := a.resolved ++ out.1,
             workerAlive := ¬ a.queue.any fun it => it.sql = none }
  else a

/-- Shallow embedding of `AlloyDBAdmin.execute_sql_async` (lines 59–81)
on the successful-enqueue path (queue below capacity, so the
`wait_for`-guarded `put` returns at once; the capacity/timeout behaviour
of that `put` is embedded separately as `executeSqlEnqueue`): ensure the
worker is started, create a fresh future, and enqueue `(sql, future)`.
Returns the caller's future id and the new state. -/
def submitAsync (sql : Option String) (a : AdminState V) : Nat × AdminState V :=
  let a1 := ensureStarted a
  (a1.nextFut, { a1 with queue := a1.queue ++ [⟨sql, some a1.nextFut⟩],
                         nextFut := a1.nextFut + 1 })

/-- Shallow embedding of `AlloyDBAdmin.shutdown` (lines 97–102): if
started, put the poison pill `(None, None)`, await the worker task (the
worker drains everything ahead of the pill and exits), then clear
`self._started`. -/
def shutdownOp (client : String → Except PyExc V) (a : AdminState V) : AdminState V :=
  if a.started then
    let a2 := drainStep client { a with queue := a.queue ++ [sentinel] }
    { a2 with started := false }
  else a

/-- Program counter of one caller running `_ensure_started`
(lines 87–95).  `atCheck`: about to run the unsynchronized
`if self._started` fast-path check; `wantLock`: saw `False`, now awaiting
`self._init_lock`; `inBody`: holds the lock, about to run the re-check
and (conditionally) `create_task`; `finished`: returned. -/
inductive StartPC : Type
  | atCheck
  | wantLock
  | inBody
  | finished
  deriving DecidableEq, Repr

/-- Global state of `n` concurrent callers racing through
`_ensure_started` on one fresh instance: the `_started` flag, whether
`_init_lock` is held, how many times `create_task(self._worker())` ran,
and each caller's program counter. -/
structure StartState where
  started : Bool
  lockHeld : Bool
  created : Nat
  pcs : List StartPC
  deriving DecidableEq, Repr

/-- `n` concurrent first callers against a fresh, unstarted instance. -/
def initStart (n : Nat) : StartState :=
  ⟨false, false, 0, List.replicate n .atCheck⟩

/-- All callers have returned from `_ensure_started`. -/
def AllDone (s : StartState) : Prop := ∀ pc ∈ s.pcs, pc = StartPC.finished

instance (s : StartState) : Decidable (AllDone s) := List.decidableBAll _ s.pcs

/-- Interleaving semantics of `_ensure_started` under asyncio's
cooperative scheduler.  Each constructor is one scheduler step of caller
`i`.  The fast-path read of `self._started` is a single atomic read
(`fastTrue`/`fastFalse`); acquiring `_init_lock` is an await point
(`acquire`); the `async with` body — re-check, `create_task`, flag set —
contains no `await`, so it runs, with the lock release, as one atomic
step (`body`). -/
inductive StartStep : StartState → StartState → Prop
  | fastTrue (s : StartState) (i : Nat) (hi : i < s.pcs.length)
      (hpc : s.pcs.get ⟨i, hi⟩ = .atCheck) (hs : s.started = true) :
      StartStep s { s with pcs := s.pcs.set i .finished }
  | fastFalse (s : StartState) (i : Nat) (hi : i < s.pcs.length)
      (hpc : s.pcs.get ⟨i, hi⟩ = .atCheck) (hs : s.started = false) :
      StartStep s { s with pcs := s.pcs.set i .wantLock }
  | acquire (s : StartState) (i : Nat) (hi : i < s.pcs.length)
      (hpc : s.pcs.get ⟨i, hi⟩ = .wantLock) (hl : s.lockHeld = false) :
      StartStep s { s with lockHeld := true, pcs := s.pcs.set i .inBody }
  | body (s : StartState) (i : Nat) (hi : i < s.pcs.length)
      (hpc : s.pcs.get ⟨i, hi⟩ = .inBody) :
      StartStep s { s with
        started := true,
        created := if s.started then s.created else s.created + 1,
        lockHeld := false,
        pcs := s.pcs.set i .finished }

/-- States reachable by interleaving `_ensure_started` steps. -/
def StartReachable : StartState → StartState → Prop :=
  Relation.ReflTransGen StartStep

/-! ## Lemmas about the worker loop -/

/-- On a queue segment of real requests followed by a poison pill, the
worker resolves each request in order with its own client outcome and
leaves everything after the pill untouched. -/
theorem workerRun_append_pill (client : String → Except PyExc V)
    (q1 : List QItem) (pill : QItem) (q2 : List QItem)
    (h1 : ∀ it ∈ q1, it.isRequest = true) (hp : pill.sql = none) :
    workerRun client (q1 ++ pill :: q2) =
      (q1.map fun it => (it.fut, client it.payload), q2) := by
  induction q1 with
  | nil => simp [workerRun, hp]
  | cons it rest ih =>
    have hit : it.isRequest = true := h1 it (List.mem_cons_self ..)
    obtain ⟨s, hs⟩ : ∃ s, it.sql = some s := by
      cases h : it.sql with
      | none => simp [QItem.isRequest, h] at hit
      | some s => exact ⟨s, rfl⟩
    have ih' := ih (fun x hx => h1 x (List.mem_cons_of_mem _ hx))
    simp [workerRun, hs, ih', QItem.payload]

/-- On a queue of real requests (no poison pill), the worker resolves
every item in order and leaves the queue empty. -/
theorem workerRun_all_requests (client : String → Except PyExc V)
    (q : List QItem) (h : ∀ it ∈ q, it.isRequest = true) :
    workerRun client q = (q.map fun it => (it.fut, client it.payload), []) := by
  induction q with
  | nil => simp [workerRun]
  | cons it rest ih =>
    have hit : it.isRequest = true := h it (List.mem_cons_self ..)
    obtain ⟨s, hs⟩ : ∃ s, it.sql = some s := by
      cases hx : it.sql with
      | none => simp [QItem.isRequest, hx] at hit
      | some s => exact ⟨s, rfl⟩
    have ih' := ih (fun x hx => h x (List.mem_cons_of_mem _ hx))
    simp [workerRun, hs, ih', QItem.payload]

/-- The worker's resolution trace is exactly the longest prefix of real
requests, mapped to their own client outcomes, in queue order. -/
theorem workerRun_trace (client : String → Except PyExc V) (q : List QItem) :
    (workerRun client q).1 =
      (q.takeWhile QItem.isRequest).map fun it => (it.fut, client it.payload) := by
  induction q with
  | nil => simp [workerRun]
  | cons it rest ih =>
    cases hs : it.sql with
    | none => simp [workerRun, hs, List.takeWhile, QItem.isRequest]
    | some s =>
      simp only [workerRun, hs, List.takeWhile, QItem.isRequest]
      simp [hs, ih, QItem.payload]

/-- Every interval scheduled from start time `t` starts no earlier than
`t` and ends no earlier than it starts. -/
theorem workerSchedule_start_le (dur : String → ℕ) (t : ℕ) (q : List QItem) :
    ∀ e ∈ workerSchedule dur t q, t ≤ e.2.1 ∧ e.2.1 ≤ e.2.2 := by
  induction q generalizing t with
  | nil => simp [workerSchedule]
  | cons it rest ih =>
    cases hs : it.sql with
    | none => simp [workerSchedule, hs]
    | some s =>
      intro e he
      simp only [workerSchedule, hs, List.mem_cons] at he
      rcases he with rfl | he
      · exact ⟨le_refl _, Nat.le_add_right ..⟩
      · have := ih (t + dur s) e he
        omega

/-- The scheduled intervals are chained: each call's end is at most the
next call's start (the worker awaits completion before dequeuing). -/
theorem workerSchedule_chain (dur : String → ℕ) (t : ℕ) (q : List QItem) :
    (workerSchedule dur t q).Pairwise fun a b => a.2.2 ≤ b.2.1 := by
  induction q generalizing t with
  | nil => simp [workerSchedule]
  | cons it rest ih =>
    cases hs : it.sql with
    | none => simp [workerSchedule, hs]
    | some s =>
      simp only [workerSchedule, hs]
      exact List.Pairwise.cons
        (fun e he => (workerSchedule_start_le dur (t + dur s) rest e he).1)
        (ih (t + dur s))

/-! ## Lemmas about startup -/

/-- Inductive invariant of the `_ensure_started` race: the worker count
tracks the `_started` flag exactly, a caller can only have returned once
the flag is set, and the number of callers is fixed. -/
def StartInv (n : Nat) (s : StartState) : Prop :=
  s.created = (if s.started then 1 else 0)
    ∧ (StartPC.finished ∈ s.pcs → s.started = true)
    ∧ s.pcs.length = n

theorem startInv_init (n : Nat) : StartInv n (initStart n) := by
  refine ⟨rfl, ?_, by simp [initStart]⟩
  intro h
  have := List.eq_of_mem_replicate h
  exact absurd this (by decide)

theorem startInv_step {n : Nat} {s t : StartState} (hinv : StartInv n s)
    (hstep : StartStep s t) : StartInv n t := by
  obtain ⟨hc, hf, hl⟩ := hinv
  cases hstep with
  | fastTrue i hi hpc hs =>
    exact ⟨by simpa [hs] using hc, fun _ => hs, by simpa using hl⟩
  | fastFalse i hi hpc hs =>
    refine ⟨hc, ?_, by simpa using hl⟩
    intro hmem
    rcases List.mem_or_eq_of_mem_set hmem with h | h
    · exact hf h
    · exact absurd h (by decide)
  | acquire i hi hpc hl' =>
    refine ⟨hc, ?_, by simpa using hl⟩
    intro hmem
    rcases List.mem_or_eq_of_mem_set hmem with h | h
    · exact hf h
    · exact absurd h (by decide)
  | body i hi hpc =>
    refine ⟨?_, fun _ => rfl, by simpa using hl⟩
    cases hst : s.started with
    | true => simpa [hst] using hc
    | false => simp [hst] at hc; simp [hst, hc]

theorem startInv_reachable {n : Nat} {s : StartState}
    (h : StartReachable (initStart n) s) : StartInv n s := by
  induction h with
  | refl => exact startInv_init n
  | tail _ hstep ih => exact startInv_step ih hstep

/-! ## Claim theorems -/

/-- C1: for every set of requests accepted via `execute_sql_async` on one
`AlloyDBAdmin` instance, their executions against the blocking client's
`execute_sql` never overlap in time — at most one request is being
executed by the blocking resource at any instant: any two distinct
scheduled calls of the worker are never both executing at the same
instant `τ`. -/
theorem worker_mutual_exclusion (dur : String → ℕ) (t0 : ℕ) (q : List QItem)
    (i j : ℕ) (hi : i < (workerSchedule dur t0 q).length)
    (hj : j < (workerSchedule dur t0 q).length) (hij : i ≠ j) (τ : ℕ) :
    ¬ (execAt ((workerSchedule dur t0 q).get ⟨i, hi⟩) τ
        ∧ execAt ((workerSchedule dur t0 q).get ⟨j, hj⟩) τ) := by
  rintro ⟨⟨hi1, hi2⟩, ⟨hj1, hj2⟩⟩
  have hchain := workerSchedule_chain dur t0 q
  rw [List.pairwise_iff_get] at hchain
  rcases Nat.lt_or_ge i j with hlt | hge
  · have := hchain ⟨i, hi⟩ ⟨j, hj⟩ hlt
    omega
  · have hlt : j < i := Nat.lt_of_le_of_ne hge (Ne.symm hij)
    have := hchain ⟨j, hj⟩ ⟨i, hi⟩ hlt
    omega

/-- Unit duration, for concrete witnesses. -/
def durOne : String → ℕ := fun _ => 1

/-- A concrete two-request queue, for concrete witnesses. -/
def qTwo : List QItem := [⟨some "a", some 0⟩, ⟨some "b", some 1⟩]

/-- Witness for C1 at a concrete input: two unit-length requests starting
at time 0; position 0 and position 1 never execute at the same instant
(checked at `τ = 1`, and the hypotheses hold). -/
theorem worker_mutual_exclusion_witness :
    0 ≠ 1 ∧
      ¬ (execAt ((workerSchedule durOne 0 qTwo).get ⟨0, by decide⟩) 1
          ∧ execAt ((workerSchedule durOne 0 qTwo).get ⟨1, by decide⟩) 1) :=
  ⟨by decide, worker_mutual_exclusion durOne 0 qTwo 0 1 (by decide) (by decide) (by decide) 1⟩

/-- C2: for any two requests A and B both successfully enqueued, with A
ahead of B, the worker invokes the blocking client on A before B.  The
resolution trace of the worker is exactly the longest pill-free prefix of
the queue mapped, in arrival order and one entry per item (no
look-ahead, no reordering, no merging of duplicates), to that item's own
client call. -/
theorem worker_fifo_order (client : String → Except PyExc V) (q : List QItem) :
    (workerRun client q).1 =
      (q.takeWhile QItem.isRequest).map fun it => (it.fut, client it.payload) :=
  workerRun_trace client q

/-- A client that always succeeds, for concrete runs. -/
def okClient : String → Except PyExc String := fun s => .ok (s ++ "-ok")

/-- C3 counterexample: on a concrete run — submit `"q1"`, let it resolve,
`shutdown()`, then call `execute_sql_async "q2"` — the post-shutdown call
is NOT rejected: after `shutdown` completed (`started = false`), the new
request is enqueued, a second worker task is created (because `shutdown`
cleared `_started` and `_ensure_started` lazily restarts), and the
request is executed and resolved successfully. -/
theorem post_shutdown_reject_cex :
    (shutdownOp okClient (drainStep okClient
        (submitAsync (some "q1") (initialAdmin (V := String))).2)).started = false
    ∧ (submitAsync (some "q2") (shutdownOp okClient (drainStep okClient
        (submitAsync (some "q1") (initialAdmin (V := String))).2))).2.queue
        = [⟨some "q2", some 1⟩]
    ∧ (drainStep okClient (submitAsync (some "q2") (shutdownOp okClient
        (drainStep okClient
          (submitAsync (some "q1") (initialAdmin (V := String))).2))).2).resolved
        = [(some 0, .ok "q1-ok"), (some 1, .ok "q2-ok")]
    ∧ (drainStep okClient (submitAsync (some "q2") (shutdownOp okClient
        (drainStep okClient
          (submitAsync (some "q1") (initialAdmin (V := String))).2))).2).workersCreated
        = 2 := by
  refine ⟨rfl, rfl, rfl, rfl⟩

/-- C3 amended: after `shutdown()` completes on a started instance, a
subsequent `execute_sql_async` call does not fail fast and is not
rejected — because `shutdown` clears `_started`, the lazy-startup path
creates a fresh worker task, and the request is enqueued and executed
normally (it neither raises nor hangs). -/
theorem post_shutdown_resubmit_restarts (client : String → Except PyExc V)
    (a : AdminState V) (hs : a.started = true) (hw : a.workerAlive = true)
    (hq : ∀ it ∈ a.queue, it.isRequest = true) (s : String) :
    (shutdownOp client a).started = false
    ∧ (submitAsync (some s) (shutdownOp client a)).2.queue
        = [⟨some s, some (shutdownOp client a).nextFut⟩]
    ∧ (submitAsync (some s) (shutdownOp client a)).2.workersCreated
        = a.workersCreated + 1
    ∧ (drainStep client (submitAsync (some s) (shutdownOp client a)).2).resolved
        = (shutdownOp client a).resolved
            ++ [(some (shutdownOp client a).nextFut, client s)] := by
  have hrun := workerRun_append_pill client a.queue sentinel [] hq rfl
  have hb : shutdownOp client a =
      { a with started := false, workerAlive := false, queue := [],
               resolved := a.resolved ++ (a.queue.map fun it =>
                 (it.fut, client it.payload)) } := by
    simp only [shutdownOp, hs, if_pos, drainStep, hw, if_true]
    rw [hrun]
    simp [List.any_append, sentinel]
  rw [hb]
  refine ⟨rfl, ?_, ?_, ?_⟩
  · simp [submitAsync, ensureStarted]
  · simp [submitAsync, ensureStarted]
  · simp [submitAsync, ensureStarted, drainStep, workerRun, QItem.payload]

/-- Witness for C3's amended theorem at a concrete input: a started
instance with one queued request. -/
theorem post_shutdown_resubmit_restarts_witness :
    (shutdownOp okClient (⟨true, true, 1, [⟨some "a", some 0⟩], [], 1⟩ :
        AdminState String)).started = false
    ∧ (submitAsync (some "b") (shutdownOp okClient
        (⟨true, true, 1, [⟨some "a", some 0⟩], [], 1⟩ : AdminState String))).2.queue
        = [⟨some "b", some (shutdownOp okClient (⟨true, true, 1,
            [⟨some "a", some 0⟩], [], 1⟩ : AdminState String)).nextFut⟩]
    ∧ (submitAsync (some "b") (shutdownOp okClient
        (⟨true, true, 1, [⟨some "a", some 0⟩], [], 1⟩ : AdminState String))).2.workersCreated
        = 1 + 1
    ∧ (drainStep okClient (submitAsync (some "b") (shutdownOp okClient
        (⟨true, true, 1, [⟨some "a", some 0⟩], [], 1⟩ : AdminState String))).2).resolved
        = (shutdownOp okClient (⟨true, true, 1, [⟨some "a", some 0⟩], [], 1⟩ :
            AdminState String)).resolved
            ++ [(some (shutdownOp okClient (⟨true, true, 1, [⟨some "a", some 0⟩], [], 1⟩ :
                  AdminState String)).nextFut, okClient "b")] :=
  post_shutdown_resubmit_restarts okClient
    (⟨true, true, 1, [⟨some "a", some 0⟩], [], 1⟩ : AdminState String)
    rfl rfl (by decide) "b"

/-- A slot for the new item becomes free within the timeout: either the
queue is below capacity now, or the worker frees a slot within
`timeout`. -/
def slotFreeWithin (cap : Nat) (q : List QItem) (slotWait timeout : ℚ) : Prop :=
  q.length < cap ∨ slotWait ≤ timeout

instance (cap : Nat) (q : List QItem) (w t : ℚ) :
    Decidable (slotFreeWithin cap q w t) :=
  inferInstanceAs (Decidable (_ ∨ _))

/-- C4: `execute_sql_async` raises `QueueFullError` if and only if its
item could not be placed in the queue within `enqueue_timeout` seconds;
in the failure case the queue is unchanged and the request was never
inserted (no partial enqueue), and in the success case the item really is
in the queue and the caller waited at most `enqueue_timeout`. -/
theorem enqueue_queue_full_iff (cap : Nat) (timeout : ℚ) (q : List QItem)
    (slotWait : ℚ) (item : QItem) (htime : 0 ≤ timeout) (hfresh : item ∉ q) :
    ((executeSqlEnqueue cap timeout q slotWait item).1 =
        some (.queueFull (queueFullMsg cap timeout))
      ↔ ¬ slotFreeWithin cap q slotWait timeout)
    ∧ (¬ slotFreeWithin cap q slotWait timeout →
        (executeSqlEnqueue cap timeout q slotWait item).2.1 = q
        ∧ item ∉ (executeSqlEnqueue cap timeout q slotWait item).2.1)
    ∧ (slotFreeWithin cap q slotWait timeout →
        (executeSqlEnqueue cap timeout q slotWait item).1 = none
        ∧ item ∈ (executeSqlEnqueue cap timeout q slotWait item).2.1
        ∧ (executeSqlEnqueue cap timeout q slotWait item).2.2 ≤ timeout) := by
  unfold executeSqlEnqueue slotFreeWithin
  by_cases h1 : q.length < cap
  · simp [h1, htime]
  · by_cases h2 : slotWait ≤ timeout
    · simp [h1, h2]
    · simp [h1, h2, hfresh]

/-- Witness for C4 at concrete inputs: capacity 1, a full queue, a slot
opening after 7 s against a 5 s timeout. -/
theorem enqueue_queue_full_iff_witness :
    ((executeSqlEnqueue 1 5 [⟨some "a", some 0⟩] 7 ⟨some "b", some 1⟩).1 =
        some (.queueFull (queueFullMsg 1 5))
      ↔ ¬ slotFreeWithin 1 [⟨some "a", some 0⟩] 7 5)
    ∧ (¬ slotFreeWithin 1 [⟨some "a", some 0⟩] 7 5 →
        (executeSqlEnqueue 1 5 [⟨some "a", some 0⟩] 7 ⟨some "b", some 1⟩).2.1 =
          [⟨some "a", some 0⟩]
        ∧ ⟨some "b", some 1⟩ ∉
            (executeSqlEnqueue 1 5 [⟨some "a", some 0⟩] 7 ⟨some "b", some 1⟩).2.1)
    ∧ (slotFreeWithin 1 [⟨some "a", some 0⟩] 7 5 →
        (executeSqlEnqueue 1 5 [⟨some "a", some 0⟩] 7 ⟨some "b", some 1⟩).1 = none
        ∧ ⟨some "b", some 1⟩ ∈
            (executeSqlEnqueue 1 5 [⟨some "a", some 0⟩] 7 ⟨some "b", some 1⟩).2.1
        ∧ (executeSqlEnqueue 1 5 [⟨some "a", some 0⟩] 7 ⟨some "b", some 1⟩).2.2 ≤ 5) :=
  enqueue_queue_full_iff 1 5 [⟨some "a", some 0⟩] 7 ⟨some "b", some 1⟩
    (by norm_num) (by decide)

/-- C5: calling `shutdown()` on a started instance with `N` requests
queued resolves every one of them (each with its own client outcome)
before `shutdown` returns; the queue is drained, the instance is marked
stopped, the worker has exited, and the sentinel is the last item the
worker loop ever processes — whatever sits behind the sentinel is left
untouched. -/
theorem shutdown_drains_all (client : String → Except PyExc V) (a : AdminState V)
    (hs : a.started = true) (hw : a.workerAlive = true)
    (hq : ∀ it ∈ a.queue, it.isRequest = true) :
    (shutdownOp client a).resolved =
        a.resolved ++ (a.queue.map fun it => (it.fut, client it.payload))
    ∧ (shutdownOp client a).queue = []
    ∧ (shutdownOp client a).started = false
    ∧ (shutdownOp client a).workerAlive = false
    ∧ ∀ r : List QItem, (workerRun client (a.queue ++ sentinel :: r)).2 = r := by
  have hrun := workerRun_append_pill client a.queue sentinel [] hq rfl
  simp only [shutdownOp, hs, if_pos, drainStep, hw, if_true]
  rw [hrun]
  refine ⟨rfl, rfl, trivial, by simp [List.any_append, sentinel], fun r => ?_⟩
  rw [workerRun_append_pill client a.queue sentinel r hq rfl]

/-- Witness for C5 at a concrete input: a started instance with two
queued requests. -/
theorem shutdown_drains_all_witness :
    (shutdownOp okClient (⟨true, true, 1, qTwo, [], 2⟩ : AdminState String)).resolved
        = [] ++ (qTwo.map fun it => (it.fut, okClient it.payload))
    ∧ (shutdownOp okClient (⟨true, true, 1, qTwo, [], 2⟩ : AdminState String)).queue = []
    ∧ (shutdownOp okClient (⟨true, true, 1, qTwo, [], 2⟩ : AdminState String)).started = false
    ∧ (shutdownOp okClient (⟨true, true, 1, qTwo, [], 2⟩ : AdminState String)).workerAlive = false
    ∧ ∀ r : List QItem, (workerRun okClient (qTwo ++ sentinel :: r)).2 = r :=
  shutdown_drains_all okClient (⟨true, true, 1, qTwo, [], 2⟩ : AdminState String)
    rfl rfl (by decide)

/-- A client that fails on the request `"bad"` and succeeds otherwise,
for concrete runs. -/
def clientBoom : String → Except PyExc String :=
  fun s => if s = "bad" then .error (.dbError "boom") else .ok (s ++ "-ok")

/-- C6 counterexample: on a concrete failing request, the exception set
on the caller's future by the worker (`future.set_exception(e)`,
line 124) is the blocking client's raw exception itself — not an
`ExecutionError` wrapper around it (no such class exists in the source):
the delivered exception is `dbError "boom"` and is not of the
`executionError` shape. -/
theorem execution_error_wrap_cex :
    workerRun clientBoom [⟨some "bad", some 0⟩] =
        ([(some 0, .error (.dbError "boom"))], [])
    ∧ (PyExc.dbError "boom").isExecutionError = false
    ∧ Except.error (PyExc.dbError "boom")
        ≠ (Except.error (PyExc.executionError (.dbError "boom")) : Except PyExc String) := by
  refine ⟨rfl, rfl, by simp⟩

/-- C6 amended: when the blocking client's `execute_sql` raises for a
queued request, the submitting caller receives the underlying exception
itself, unwrapped (the source defines no `ExecutionError`), delivered
only through that request's result slot: the slot of the failing request
holds exactly the raw error, every slot holds only its own request's
outcome, and (futures being distinct) no future appears twice in the
trace, so the error reaches exactly one slot. -/
theorem error_delivered_raw (client : String → Except PyExc V) (q : List QItem)
    (hq : ∀ x ∈ q, x.isRequest = true) (it : QItem) (e : PyExc)
    (hmem : it ∈ q) (hfail : client it.payload = .error e)
    (hnodup : (q.map QItem.fut).Nodup) :
    ((it.fut, (Except.error e : Except PyExc V)) ∈ (workerRun client q).1)
    ∧ (workerRun client q).1 = (q.map fun x => (x.fut, client x.payload))
    ∧ ((workerRun client q).1.map Prod.fst).Nodup := by
  have htr := workerRun_all_requests client q hq
  have htr1 : (workerRun client q).1 = q.map fun x => (x.fut, client x.payload) := by
    rw [htr]
  refine ⟨?_, htr1, ?_⟩
  · rw [htr1]
    exact List.mem_map.2 ⟨it, hmem, by rw [hfail]⟩
  · rw [htr1]
    have hmapeq : (q.map fun x => (x.fut, client x.payload)).map Prod.fst
        = q.map QItem.fut := by
      simp [List.map_map, Function.comp_def]
    rw [hmapeq]
    exact hnodup

/-- Witness for C6's amended theorem at a concrete input: three queued
requests whose middle one fails. -/
theorem error_delivered_raw_witness :
    ((some 1, (Except.error (PyExc.dbError "boom") : Except PyExc String))
        ∈ (workerRun clientBoom
            [⟨some "a", some 0⟩, ⟨some "bad", some 1⟩, ⟨some "c", some 2⟩]).1)
    ∧ (workerRun clientBoom
          [⟨some "a", some 0⟩, ⟨some "bad", some 1⟩, ⟨some "c", some 2⟩]).1 =
        (([⟨some "a", some 0⟩, ⟨some "bad", some 1⟩, ⟨some "c", some 2⟩] :
            List QItem).map fun x => (x.fut, clientBoom x.payload))
    ∧ ((workerRun clientBoom
          [⟨some "a", some 0⟩, ⟨some "bad", some 1⟩, ⟨some "c", some 2⟩]).1.map
            Prod.fst).Nodup :=
  error_delivered_raw clientBoom
    [⟨some "a", some 0⟩, ⟨some "bad", some 1⟩, ⟨some "c", some 2⟩]
    (by decide) ⟨some "bad", some 1⟩ (.dbError "boom")
    (by decide) rfl (by decide)

/-- C7: every exception raised by the blocking client for one queued
request is caught by the worker loop (`except Exception`, line 122),
attached only to that request's slot, and the worker proceeds with the
next item: with requests `q1` before a failing request `bad` and `q2`
after it, the whole queue is still processed in order, `bad`'s slot gets
the captured error, every sibling's slot gets its own client outcome, and
the loop does not terminate (no items are left behind). -/
theorem worker_error_isolation (client : String → Except PyExc V)
    (q1 q2 : List QItem) (bad : QItem) (e : PyExc)
    (h1 : ∀ x ∈ q1, x.isRequest = true) (hbad : bad.isRequest = true)
    (h2 : ∀ x ∈ q2, x.isRequest = true)
    (hfail : client bad.payload = .error e) :
    workerRun client (q1 ++ bad :: q2) =
      ((q1.map fun x => (x.fut, client x.payload))
        ++ (bad.fut, (Except.error e : Except PyExc V))
          :: (q2.map fun x => (x.fut, client x.payload)), []) := by
  have hall : ∀ x ∈ q1 ++ bad :: q2, x.isRequest = true := by
    intro x hx
    rcases List.mem_append.1 hx with h | h
    · exact h1 x h
    · rcases List.mem_cons.1 h with rfl | h
      · exact hbad
      · exact h2 x h
  rw [workerRun_all_requests client _ hall]
  simp [hfail]

/-- Witness for C7 at a concrete input: the middle of three requests
fails; the first and third still resolve with their own results. -/
theorem worker_error_isolation_witness :
    workerRun clientBoom
        ([⟨some "a", some 0⟩] ++ ⟨some "bad", some 1⟩ :: [⟨some "c", some 2⟩]) =
      ((([⟨some "a", some 0⟩] : List QItem).map
            fun x => (x.fut, clientBoom x.payload))
        ++ (some 1, (Except.error (PyExc.dbError "boom") : Except PyExc String))
          :: (([⟨some "c", some 2⟩] : List QItem).map
            fun x => (x.fut, clientBoom x.payload)), []) :=
  worker_error_isolation clientBoom [⟨some "a", some 0⟩] [⟨some "c", some 2⟩]
    ⟨some "bad", some 1⟩ (.dbError "boom") (by decide) (by decide) (by decide) rfl

/-- C8 counterexample: with capacity 1, a full queue, the next slot
opening only after 7 s, and `enqueue_timeout = 5` s, an ordinary
submission obeys the bounded wait and fails with `QueueFullError`, but
the sentinel enqueue performed by `shutdown()` (a plain `queue.put` with
no `wait_for`) succeeds after waiting 7 s — longer than `enqueue_timeout`
— so it is NOT subject to the same backpressure discipline. -/
theorem sentinel_backpressure_cex :
    (executeSqlEnqueue 1 5 [⟨some "a", some 0⟩] 7 ⟨some "b", some 1⟩).1 =
        some (.queueFull (queueFullMsg 1 5))
    ∧ shutdownPutSentinel 1 [⟨some "a", some 0⟩] 7 = ([sentinel], 7)
    ∧ ¬ ((7 : ℚ) ≤ 5) := by
  refine ⟨rfl, rfl, by decide⟩

/-- C8 amended: the sentinel enqueue performed by `shutdown()` is a plain
`queue.put` with no timeout: whenever an ordinary submission in the same
situation would exhaust `enqueue_timeout` and raise `QueueFullError`, the
sentinel put still succeeds, waiting the full (unbounded) time until a
slot opens. -/
theorem sentinel_put_unbounded (cap : Nat) (timeout : ℚ) (q : List QItem)
    (w : ℚ) (item : QItem) (hfull : ¬ q.length < cap) (hlate : ¬ w ≤ timeout) :
    (executeSqlEnqueue cap timeout q w item).1 =
        some (.queueFull (queueFullMsg cap timeout))
    ∧ sentinel ∈ (shutdownPutSentinel cap q w).1
    ∧ (shutdownPutSentinel cap q w).2 = w := by
  unfold executeSqlEnqueue shutdownPutSentinel
  simp [hfull, hlate]

/-- Witness for C8's amended theorem at the concrete input of the
counterexample. -/
theorem sentinel_put_unbounded_witness :
    (executeSqlEnqueue 1 5 [⟨some "a", some 0⟩] 7 ⟨some "b", some 1⟩).1 =
        some (.queueFull (queueFullMsg 1 5))
    ∧ sentinel ∈ (shutdownPutSentinel 1 [⟨some "a", some 0⟩] 7).1
    ∧ (shutdownPutSentinel 1 [⟨some "a", some 0⟩] 7).2 = 7 :=
  sentinel_put_unbounded 1 5 [⟨some "a", some 0⟩] 7 ⟨some "b", some 1⟩
    (by decide) (by decide)

/-- C9: any interleaving of `n ≥ 1` concurrent first callers running
`_ensure_started` on a fresh, unstarted instance that lets every caller
return creates exactly one worker task: the fast unsynchronized check of
`_started` plus the lock-protected re-check before
`create_task(self._worker())` make startup idempotent and race-free. -/
theorem startup_exactly_one_worker (n : Nat) (hn : 1 ≤ n) (s : StartState)
    (hreach : StartReachable (initStart n) s) (hdone : AllDone s) :
    s.created = 1 := by
  obtain ⟨hc, hf, hl⟩ := startInv_reachable hreach
  have hne : s.pcs ≠ [] := by
    intro h
    rw [h] at hl
    simp at hl
    omega
  obtain ⟨pc, hpc⟩ := List.exists_mem_of_ne_nil s.pcs hne
  have : pc = StartPC.finished := hdone pc hpc
  rw [this] at hpc
  rw [hf hpc] at hc
  simpa using hc

/-- Witness for C9 at a concrete input: an explicit interleaving of two
concurrent first callers — both see the flag unset on the fast path, both
queue for the lock, and the lock-protected re-check lets only the first
body create a worker — ends with everyone returned and exactly one worker
created. -/
theorem startup_exactly_one_worker_witness :
    1 ≤ 2 ∧ (⟨true, false, 1, [.finished, .finished]⟩ : StartState).created = 1 := by
  refine ⟨by decide, ?_⟩
  have h1 : StartStep (initStart 2) ⟨false, false, 0, [.wantLock, .atCheck]⟩ :=
    StartStep.fastFalse (initStart 2) 0 (by decide) rfl rfl
  have h2 : StartStep ⟨false, false, 0, [.wantLock, .atCheck]⟩
      ⟨false, false, 0, [.wantLock, .wantLock]⟩ :=
    StartStep.fastFalse _ 1 (by decide) rfl rfl
  have h3 : StartStep ⟨false, false, 0, [.wantLock, .wantLock]⟩
      ⟨false, true, 0, [.inBody, .wantLock]⟩ :=
    StartStep.acquire _ 0 (by decide) rfl rfl
  have h4 : StartStep ⟨false, true, 0, [.inBody, .wantLock]⟩
      ⟨true, false, 1, [.finished, .wantLock]⟩ :=
    StartStep.body _ 0 (by decide) rfl
  have h5 : StartStep ⟨true, false, 1, [.finished, .wantLock]⟩
      ⟨true, true, 1, [.finished, .inBody]⟩ :=
    StartStep.acquire _ 1 (by decide) rfl rfl
  have h6 : StartStep ⟨true, true, 1, [.finished, .inBody]⟩
      ⟨true, false, 1, [.finished, .finished]⟩ :=
    StartStep.body _ 1 (by decide) rfl
  have hchain : StartReachable (initStart 2) ⟨true, false, 1, [.finished, .finished]⟩ :=
    Relation.ReflTransGen.head h1 (Relation.ReflTransGen.head h2
      (Relation.ReflTransGen.head h3 (Relation.ReflTransGen.head h4
        (Relation.ReflTransGen.head h5 (Relation.ReflTransGen.head h6
          Relation.ReflTransGen.refl)))))
  exact startup_exactly_one_worker 2 (by decide) _ hchain (by decide)

/-- C10: a call to `execute_sql_async` with `sql = None` enqueues
`(None, future)`, which the worker's exit test (`if sql is None`,
line 110) cannot tell apart from the shutdown pill `(None, None)`: the
worker behaves identically on both, it exits on dequeuing the item, the
caller's future is never resolved, and the requests enqueued after it are
never processed. -/
theorem none_sql_acts_as_sentinel (client : String → Except PyExc V)
    (q1 q2 : List QItem) (f : Nat)
    (h1 : ∀ x ∈ q1, x.isRequest = true)
    (hfresh : (some f : Option Nat) ∉ q1.map QItem.fut) :
    workerRun client (q1 ++ ⟨none, some f⟩ :: q2) =
        workerRun client (q1 ++ sentinel :: q2)
    ∧ (workerRun client (q1 ++ ⟨none, some f⟩ :: q2)).2 = q2
    ∧ (some f : Option Nat)
        ∉ (workerRun client (q1 ++ ⟨none, some f⟩ :: q2)).1.map Prod.fst := by
  have hA := workerRun_append_pill client q1 ⟨none, some f⟩ q2 h1 rfl
  have hB := workerRun_append_pill client q1 sentinel q2 h1 rfl
  rw [hA, hB]
  refine ⟨rfl, rfl, ?_⟩
  simpa [List.map_map, Function.comp_def] using hfresh

/-- Witness for C10 at a concrete input: one request ahead of the
`(None, future 1)` item and one request behind it. -/
theorem none_sql_acts_as_sentinel_witness :
    workerRun okClient ([⟨some "a", some 0⟩] ++ ⟨none, some 1⟩ :: [⟨some "c", some 2⟩]) =
        workerRun okClient ([⟨some "a", some 0⟩] ++ sentinel :: [⟨some "c", some 2⟩])
    ∧ (workerRun okClient
        ([⟨some "a", some 0⟩] ++ ⟨none, some 1⟩ :: [⟨some "c", some 2⟩])).2 =
        [⟨some "c", some 2⟩]
    ∧ (some 1 : Option Nat)
        ∉ (workerRun okClient
            ([⟨some "a", some 0⟩] ++ ⟨none, some 1⟩ :: [⟨some "c", some 2⟩])).1.map
              Prod.fst :=
  none_sql_acts_as_sentinel okClient [⟨some "a", some 0⟩] [⟨some "c", some 2⟩] 1
    (by decide) (by decide)
